import Mathlib

/-!
# mood-service: verification of the cache-aside tweet sentiment service

Shallow embedding of `src/index.ts`, a Fastify service with three routes:

* `GET /sentiment`   — cache-aside read of all tweet records;
* `POST /sentiment`  — one-at-a-time upsert of a batch of tweets;
* `GET /last-known-tweet` — id of the greatest-id tweet record.

Modelling conventions:

* JSON values are modelled by the inductive `JsValue`; `vundef` stands for
  JavaScript `undefined`, which `JSON.parse` never produces but property
  access can.
* The Redis value stored under a key is a string; the handler observes only
  its truthiness and its `JSON.parse` outcome, so a cached string is
  abstracted by `CachedString`: the empty string (falsy), a non-empty
  string that is not valid JSON (on which `JSON.parse` throws), or a
  non-empty string parsing to a `JsValue`.
* The Cosmos document store is a list of `JsValue` documents; the SQL query
  `SELECT * FROM tweets t WHERE t.type = @type` is the filter
  `queryTweets`, and `ORDER BY t.id DESC OFFSET 0 LIMIT 1` is modelled by
  sorting ids descending under the lexicographic string order and taking
  the head.
* Each handler is a pure function of its inputs plus injected collaborator
  failures (`setFails` for `client.set`, `failAt` for a throwing upsert).
  It returns `Except Unit` (an uncaught throw rejects the request) together
  with the trace of store/cache effects it performed.  The response
  schema serialization done by Fastify is plumbing outside the modelled core.
-/

namespace MoodService

/-- A JavaScript/JSON value.  Numbers are modelled by `Rat`. -/
inductive JsValue : Type where
  | vnull : JsValue
  | vundef : JsValue
  | vbool : Bool → JsValue
  | vnum : Rat → JsValue
  | vstr : String → JsValue
  | varr : List JsValue → JsValue
  | vobj : List (String × JsValue) → JsValue

/-- Look a field up in the field list of an object; with duplicate keys the last
occurrence wins, as in `JSON.parse`.  `none` is JavaScript `undefined`. -/
def objGet (fields : List (String × JsValue)) (name : String) : Option JsValue :=
  match fields with
  | [] => none
  | (k, v) :: rest =>
    match objGet rest name with
    | some w => some w
    | none => if k = name then some v else none

/-- Evaluate the property access `v.name`.  Accessing a property of `null`
or `undefined` throws a `TypeError` (`Except.error`); on other primitives a
missing property evaluates to `undefined` (`Option.none`).  Strings and
arrays expose `length` (the only property the service reads on them). -/
def getProp : JsValue → String → Except Unit (Option JsValue)
  | JsValue.vnull, _ => Except.error ()
  | JsValue.vundef, _ => Except.error ()
  | JsValue.vbool _, _ => Except.ok none
  | JsValue.vnum _, _ => Except.ok none
  | JsValue.vstr s, n => Except.ok (if n = "length" then some (JsValue.vnum s.length) else none)
  | JsValue.varr xs, n => Except.ok (if n = "length" then some (JsValue.vnum xs.length) else none)
  | JsValue.vobj fs, n => Except.ok (objGet fs n)

/-- Evaluate `o.name` where `o` is the (possibly `undefined`) result of a
previous property access. -/
def getPropU : Option JsValue → String → Except Unit (Option JsValue)
  | none, _ => Except.error ()
  | some v, n => getProp v n

/-- Coerce an access result back into a value placed in an object literal:
an absent property contributes `undefined`. -/
def ou (o : Option JsValue) : JsValue :=
  o.getD JsValue.vundef

/-- The strict comparison `x === 0` on a (possibly `undefined`) property
value: true exactly on the number `0`. -/
def strictEqZero : Option JsValue → Bool
  | some (JsValue.vnum q) => if q = 0 then true else false
  | _ => false

/-- `Except`-valued map over a list, stopping at the first error: the
semantics of `Array.prototype.map` with a throwing callback. -/
def mapExcept (f : JsValue → Except Unit JsValue) : List JsValue → Except Unit (List JsValue)
  | [] => Except.ok []
  | x :: xs =>
    match f x with
    | Except.error e => Except.error e
    | Except.ok y =>
      match mapExcept f xs with
      | Except.error e => Except.error e
      | Except.ok ys => Except.ok (y :: ys)

/-- Evaluate `o.map(f)` on a (possibly `undefined`) property value: only an
array has `.map`; on anything else the call throws. -/
def jsMapArr (f : JsValue → Except Unit JsValue) : Option JsValue → Except Unit (List JsValue)
  | some (JsValue.varr xs) => mapExcept f xs
  | _ => Except.error ()

/-! ## The record model (the typebox schemas of `index.ts`) -/

/-- `ConfidenceScores`: `positive`, `neutral`, `negative` numbers. -/
structure ConfidenceScores : Type where
  positive : Rat
  neutral : Rat
  negative : Rat

/-- `Sentence`: a scored span of tweet text. -/
structure Sentence : Type where
  sentiment : String
  confidenceScores : ConfidenceScores
  offset : Int
  length : Int
  text : String

/-- `Sentiment`: the aggregate score plus per-sentence scores. -/
structure Sentiment : Type where
  sentiment : String
  confidenceScores : ConfidenceScores
  sentences : List Sentence

/-- `TweetWithSentiment`: the wire shape of a tweet record. -/
structure Tweet : Type where
  id : String
  text : String
  sentiment : Sentiment

/-- JSON encoding of `ConfidenceScores`. -/
def encodeScores (c : ConfidenceScores) : JsValue :=
  JsValue.vobj [("positive", JsValue.vnum c.positive),
    ("neutral", JsValue.vnum c.neutral),
    ("negative", JsValue.vnum c.negative)]

/-- JSON encoding of `Sentence`. -/
def encodeSentence (s : Sentence) : JsValue :=
  JsValue.vobj [("sentiment", JsValue.vstr s.sentiment),
    ("confidenceScores", encodeScores s.confidenceScores),
    ("offset", JsValue.vnum s.offset),
    ("length", JsValue.vnum s.length),
    ("text", JsValue.vstr s.text)]

/-- JSON encoding of `Sentiment`. -/
def encodeSentiment (s : Sentiment) : JsValue :=
  JsValue.vobj [("sentiment", JsValue.vstr s.sentiment),
    ("confidenceScores", encodeScores s.confidenceScores),
    ("sentences", JsValue.varr (s.sentences.map encodeSentence))]

/-- JSON encoding of `Tweet` — the canonical response shape; note there is
no `type` field. -/
def encodeTweet (t : Tweet) : JsValue :=
  JsValue.vobj [("id", JsValue.vstr t.id),
    ("text", JsValue.vstr t.text),
    ("sentiment", encodeSentiment t.sentiment)]

/-- JSON encoding of a tweet list, the payload cached under `"tweets"`. -/
def encodeTweetList (ts : List Tweet) : JsValue :=
  JsValue.varr (ts.map encodeTweet)

/-- The document `{...tweet, type: "tweet"}` passed to `items.upsert` by
the POST handler. -/
def storedDoc (t : Tweet) : JsValue :=
  JsValue.vobj [("id", JsValue.vstr t.id),
    ("text", JsValue.vstr t.text),
    ("sentiment", encodeSentiment t.sentiment),
    ("type", JsValue.vstr "tweet")]

/-- Top-level field lookup on a value (`none` when absent or not an
object), used to state that a response carries no `type` discriminator. -/
def topField (v : JsValue) (name : String) : Option JsValue :=
  match v with
  | JsValue.vobj fs => objGet fs name
  | _ => none

/-! ## Cache and effect model -/

/-- Abstraction of the string held in Redis under a key, quotiented by what
the handler can observe: truthiness and the `JSON.parse` outcome. -/
inductive CachedString : Type where
  | emptyStr : CachedString
  | invalid : CachedString
  | parsed : JsValue → CachedString

/-- One store/cache side effect performed by a handler.  `cacheSet` records
the value passed to `JSON.stringify` and the `EX` expiry in seconds. -/
inductive Event : Type where
  | cacheGet : String → Event
  | cacheSet : String → JsValue → Nat → Event
  | storeQuery : Event
  | storeUpsert : JsValue → Event

/-- Was the event a cache operation? -/
def isCacheEvent : Event → Bool
  | Event.cacheGet _ => true
  | Event.cacheSet _ _ _ => true
  | _ => false

/-- Apply one effect to a multi-key cache state (an association list from
key to cached string). -/
def applyEvent (c : List (String × CachedString)) : Event → List (String × CachedString)
  | Event.cacheSet k v _ => (k, CachedString.parsed v) :: c.filter (fun p => p.1 ≠ k)
  | _ => c

/-- Apply a trace of effects to a cache state. -/
def applyEvents (c : List (String × CachedString)) (evs : List Event) :
    List (String × CachedString) :=
  evs.foldl applyEvent c

/-! ## The store query of the read path -/

/-- The filter `WHERE t.type = @type` with `@type = "tweet"`: documents
whose `type` field is the string `"tweet"`. -/
def isTweetDoc (d : JsValue) : Bool :=
  match d with
  | JsValue.vobj fs =>
    match objGet fs "type" with
    | some (JsValue.vstr s) => if s = "tweet" then true else false
    | _ => false
  | _ => false

/-- Result list of `SELECT * FROM tweets t WHERE t.type = @type`. -/
def queryTweets (store : List JsValue) : List JsValue :=
  store.filter isTweetDoc

/-! ## Normalization (the `response.resources.map` of the GET handler) -/

/-- The per-sentence mapping body (lines 137–147 of `index.ts`): re-read
every field of a raw sentence.  TypeScript `as` casts are runtime no-ops,
so each field is whatever the access yields; a throwing access aborts.
Written as explicit matches (the `Except` error flow of each `await`-free
JS expression) so that the function reduces by iota. -/
def normalizeSentence (sv : JsValue) : Except Unit JsValue :=
  match getProp sv "sentiment" with
  | Except.error e => Except.error e
  | Except.ok sent =>
    match getProp sv "confidenceScores" with
    | Except.error e => Except.error e
    | Except.ok cs =>
      match getPropU cs "positive" with
      | Except.error e => Except.error e
      | Except.ok pos =>
        match getPropU cs "neutral" with
        | Except.error e => Except.error e
        | Except.ok neu =>
          match getPropU cs "negative" with
          | Except.error e => Except.error e
          | Except.ok neg =>
            match getProp sv "offset" with
            | Except.error e => Except.error e
            | Except.ok off =>
              match getProp sv "length" with
              | Except.error e => Except.error e
              | Except.ok len =>
                match getProp sv "text" with
                | Except.error e => Except.error e
                | Except.ok txt =>
                  Except.ok (JsValue.vobj [("sentiment", ou sent),
                    ("confidenceScores", JsValue.vobj [("positive", ou pos),
                      ("neutral", ou neu), ("negative", ou neg)]),
                    ("offset", ou off), ("length", ou len), ("text", ou txt)])

/-- The per-record mapping body (lines 124–152 of `index.ts`): rebuild the
canonical tweet shape from a raw store document. -/
def normalizeTweet (tv : JsValue) : Except Unit JsValue :=
  match getProp tv "id" with
  | Except.error e => Except.error e
  | Except.ok i =>
    match getProp tv "text" with
    | Except.error e => Except.error e
    | Except.ok txt =>
      match getProp tv "sentiment" with
      | Except.error e => Except.error e
      | Except.ok sent =>
        match getPropU sent "sentiment" with
        | Except.error e => Except.error e
        | Except.ok ss =>
          match getPropU sent "confidenceScores" with
          | Except.error e => Except.error e
          | Except.ok cs =>
            match getPropU cs "positive" with
            | Except.error e => Except.error e
            | Except.ok pos =>
              match getPropU cs "neutral" with
              | Except.error e => Except.error e
              | Except.ok neu =>
                match getPropU cs "negative" with
                | Except.error e => Except.error e
                | Except.ok neg =>
                  match getPropU sent "sentences" with
                  | Except.error e => Except.error e
                  | Except.ok sentences =>
                    match jsMapArr normalizeSentence sentences with
                    | Except.error e => Except.error e
                    | Except.ok mapped =>
                      Except.ok (JsValue.vobj [("id", ou i), ("text", ou txt),
                        ("sentiment", JsValue.vobj [("sentiment", ou ss),
                          ("confidenceScores", JsValue.vobj [("positive", ou pos),
                            ("neutral", ou neu), ("negative", ou neg)]),
                          ("sentences", JsValue.varr mapped)])])

/-! ## GET /sentiment -/

/-- The GET /sentiment handler from the point where `tweets` holds the
parsed cache value (or `[]` when the cache was absent or falsy): the
`tweets.length === 0` test, the store query, normalization, the cache
write-back with `EX: 60 * 60 * 24`, and the `{data: tweets}` reply. -/
def getSentimentBody (tweets : JsValue) (store : List JsValue) (setFails : Bool) :
    Except Unit JsValue × List Event :=
  match getProp tweets "length" with
  | Except.error _ => (Except.error (), [Event.cacheGet "tweets"])
  | Except.ok l =>
    if strictEqZero l then
      let rs := queryTweets store
      if rs.length > 0 then
        match mapExcept normalizeTweet rs with
        | Except.error e => (Except.error e, [Event.cacheGet "tweets", Event.storeQuery])
        | Except.ok ns =>
          if setFails then
            (Except.error (), [Event.cacheGet "tweets", Event.storeQuery])
          else
            (Except.ok (JsValue.varr ns),
              [Event.cacheGet "tweets", Event.storeQuery,
                Event.cacheSet "tweets" (JsValue.varr ns) (60 * 60 * 24)])
      else (Except.ok tweets, [Event.cacheGet "tweets", Event.storeQuery])
    else (Except.ok tweets, [Event.cacheGet "tweets"])

/-- The GET /sentiment handler (lines 88–162 of `index.ts`).  `cache` is
the Redis content under `"tweets"`; `setFails` injects a rejecting
`client.set`.  A `JSON.parse` throw is uncaught and rejects the request. -/
def getSentiment (cache : Option CachedString) (store : List JsValue) (setFails : Bool) :
    Except Unit JsValue × List Event :=
  match cache with
  | some CachedString.invalid => (Except.error (), [Event.cacheGet "tweets"])
  | some (CachedString.parsed v) => getSentimentBody v store setFails
  | some CachedString.emptyStr => getSentimentBody (JsValue.varr []) store setFails
  | none => getSentimentBody (JsValue.varr []) store setFails

/-- The cache states the handler treats as a miss: the branch condition
under which `getSentiment` proceeds to the store query. -/
def missLike : Option CachedString → Bool
  | none => true
  | some CachedString.emptyStr => true
  | some CachedString.invalid => false
  | some (CachedString.parsed v) =>
    match getProp v "length" with
    | Except.ok l => strictEqZero l
    | Except.error _ => false

/-! ## POST /sentiment -/

/-- The string `id` of a document, when present. -/
def docId (d : JsValue) : Option String :=
  match d with
  | JsValue.vobj fs =>
    match objGet fs "id" with
    | some (JsValue.vstr s) => some s
    | _ => none
  | _ => none

/-- Cosmos `items.upsert`: replace the document with the same `id`, else
append. -/
def upsertDoc (store : List JsValue) (d : JsValue) : List JsValue :=
  match docId d with
  | none => store ++ [d]
  | some i =>
    if store.any (fun e => docId e = some i) then
      store.map (fun e => if docId e = some i then d else e)
    else store ++ [d]

/-- The upsert loop of the POST handler: one await per tweet, in input
order.  `failAt = some n` makes the upsert of the tweet at index `n` throw;
a throw stops the loop with the store unchanged by the failing call.
Returns (outcome, effect trace, final store). -/
def runUpserts : List JsValue → List Tweet → Option Nat → Nat →
    Except Unit Unit × List Event × List JsValue
  | store, [], _, _ => (Except.ok (), [], store)
  | store, t :: rest, failAt, i =>
    if failAt = some i then (Except.error (), [], store)
    else
      let d := storedDoc t
      let r := runUpserts (upsertDoc store d) rest failAt (i + 1)
      (r.1, Event.storeUpsert d :: r.2.1, r.2.2)

/-- The POST /sentiment handler (lines 214–236 of `index.ts`): guard
`tweets && tweets.length > 0`, then the upsert loop, then the `200`
acknowledgement. -/
def postSentiment (body : List Tweet) (store : List JsValue) (failAt : Option Nat) :
    Except Unit Unit × List Event × List JsValue :=
  if body.length > 0 then runUpserts store body failAt 0
  else (Except.ok (), [], store)

/-! ## GET /last-known-tweet -/

/-- Lexicographic order on character lists: the string ordering used by
`ORDER BY t.id DESC`. -/
def lexLe : List Char → List Char → Bool
  | [], _ => true
  | _ :: _, [] => false
  | a :: as, b :: bs => if a < b then true else if b < a then false else lexLe as bs

/-- `strLe a b`: `a` precedes-or-equals `b` in the string order of the store. -/
def strLe (a b : String) : Bool := lexLe a.data b.data

/-- The descending comparison used to sort ids. -/
def sortDescRel : String → String → Prop := fun a b => strLe b a = true

instance : DecidableRel sortDescRel := fun a b => by
  unfold sortDescRel
  infer_instance

/-- Sort a list of ids in descending string order. -/
def sortDesc (l : List String) : List String := List.insertionSort sortDescRel l

/-- The string ids of the documents matched by
`WHERE t.type = @type` (Cosmos ids are strings; `ORDER BY` drops documents
missing the ordering field). -/
def tweetIds (store : List JsValue) : List String :=
  (queryTweets store).filterMap docId

/-- The GET /last-known-tweet handler (lines 256–285 of `index.ts`):
`SELECT t.id ... ORDER BY t.id DESC OFFSET 0 LIMIT 1`, then 200 with the
head id, or 404 with `{data: {id: ""}}`.  Returns (status, body, trace). -/
def lastKnownTweet (store : List JsValue) : Nat × JsValue × List Event :=
  match (sortDesc (tweetIds store)).head? with
  | some i =>
    (200, JsValue.vobj [("data", JsValue.vobj [("id", JsValue.vstr i)])], [Event.storeQuery])
  | none =>
    (404, JsValue.vobj [("data", JsValue.vobj [("id", JsValue.vstr "")])], [Event.storeQuery])

end MoodService

namespace MoodService

/-! ## Helper lemmas: normalization round trip -/

theorem normalizeSentence_encode (s : Sentence) :
    normalizeSentence (encodeSentence s) = Except.ok (encodeSentence s) := rfl

theorem mapExcept_encodeSentences (ss : List Sentence) :
    mapExcept normalizeSentence (ss.map encodeSentence) = Except.ok (ss.map encodeSentence) := by
  induction ss with
  | nil => rfl
  | cons s rest ih => simp [List.map, mapExcept, normalizeSentence_encode, ih]

theorem normalizeTweet_storedDoc (t : Tweet) :
    normalizeTweet (storedDoc t) = Except.ok (encodeTweet t) := by
  simp [normalizeTweet, storedDoc, encodeTweet, encodeSentiment, encodeScores, getProp, getPropU,
    objGet, jsMapArr, ou, mapExcept_encodeSentences]

theorem isTweetDoc_storedDoc (t : Tweet) : isTweetDoc (storedDoc t) = true := rfl

/-! ## Sample records for witnesses -/

/-- A sample tweet with one sentence. -/
def sampleTweet : Tweet :=
  { id := "100", text := "hello",
    sentiment :=
      { sentiment := "positive",
        confidenceScores := { positive := 9/10, neutral := 1/20, negative := 1/20 },
        sentences :=
          [{ sentiment := "positive",
             confidenceScores := { positive := 9/10, neutral := 1/20, negative := 1/20 },
             offset := 0, length := 5, text := "hello" }] } }

/-- A second sample tweet with a lexicographically smaller id. -/
def sampleTweetB : Tweet :=
  { sampleTweet with id := "099", text := "meh" }

/-! ## C1 -/

/-- C1: cache-hit short-circuit — when the cache holds, under the key
`"tweets"`, a value parsing to a non-empty list of encoded tweets, the
handler replies with exactly that parsed payload, performs no store query
and no cache write (the trace is the single cache read). -/
theorem c1_cache_hit_short_circuit (ts : List Tweet) (h : ts ≠ []) (store : List JsValue)
    (sf : Bool) :
    getSentiment (some (CachedString.parsed (encodeTweetList ts))) store sf
      = (Except.ok (encodeTweetList ts), [Event.cacheGet "tweets"]) := by
  simp [getSentiment, getSentimentBody, encodeTweetList, getProp, strictEqZero,
    Nat.cast_eq_zero, List.length_eq_zero, h]

theorem c1_witness :
    ([sampleTweet] : List Tweet) ≠ []
    ∧ getSentiment (some (CachedString.parsed (encodeTweetList [sampleTweet]))) [] false
        = (Except.ok (encodeTweetList [sampleTweet]), [Event.cacheGet "tweets"]) :=
  ⟨(fun h => nomatch h), c1_cache_hit_short_circuit [sampleTweet] (fun h => nomatch h) [] false⟩

/-! ## C2 (code bug evidence) -/

/-- C2: the code does NOT fall through to the store on a cache entry that
fails `JSON.parse` — the uncaught parse throw rejects the request before
any store query, for every store state.  This contradicts the claimed
malformed-cache fallback. -/
theorem c2_invalid_cache_rejects (store : List JsValue) (sf : Bool) :
    getSentiment (some CachedString.invalid) store sf
      = (Except.error (), [Event.cacheGet "tweets"]) := rfl

/-! ## C4 -/

/-- C4: with an absent, empty-string, or empty-list cache entry and a store
query returning zero records, the handler replies with the empty list and
performs no cache write — the trace holds only the cache read and the
store query, so the cache key keeps its prior state. -/
theorem c4_empty_store_not_cached (cache : Option CachedString) (store : List JsValue) (sf : Bool)
    (hc : cache = none ∨ cache = some CachedString.emptyStr
      ∨ cache = some (CachedString.parsed (JsValue.varr [])))
    (hq : queryTweets store = []) :
    getSentiment cache store sf
      = (Except.ok (JsValue.varr []), [Event.cacheGet "tweets", Event.storeQuery]) := by
  rcases hc with hc | hc | hc <;> subst hc <;>
    simp [getSentiment, getSentimentBody, getProp, strictEqZero, hq]

theorem c4_witness :
    (queryTweets [] = []) ∧ getSentiment none [] false
      = (Except.ok (JsValue.varr []), [Event.cacheGet "tweets", Event.storeQuery]) :=
  ⟨rfl, c4_empty_store_not_cached none [] false (Or.inl rfl) rfl⟩

/-! ## C5 (code bug evidence) -/

/-- C5: the code does NOT absorb a cache write-back failure — with an empty
cache and one stored tweet, a rejecting `client.set` makes the request
fail instead of returning the fetched data.  This contradicts the claimed
best-effort write-back. -/
theorem c5_set_failure_rejects :
    getSentiment none [storedDoc sampleTweet] true
      = (Except.error (), [Event.cacheGet "tweets", Event.storeQuery]) := rfl

/-! ## C6 -/

/-- C6: round-trip normalization — posting a tweet stores
`{...tweet, type: "tweet"}`; a subsequent cache-miss GET returns exactly
the canonical encoding of the original tweet (all nested sentence fields
included) and caches it, and the response carries no `type` field. -/
theorem c6_round_trip (t : Tweet) :
    (postSentiment [t] [] none).2.2 = [storedDoc t]
    ∧ getSentiment none [storedDoc t] false
        = (Except.ok (JsValue.varr [encodeTweet t]),
           [Event.cacheGet "tweets", Event.storeQuery,
            Event.cacheSet "tweets" (JsValue.varr [encodeTweet t]) (60 * 60 * 24)])
    ∧ topField (encodeTweet t) "type" = none := by
  refine ⟨rfl, ?_, ?_⟩
  · simp [getSentiment, getSentimentBody, getProp, strictEqZero, queryTweets,
      isTweetDoc_storedDoc, mapExcept, normalizeTweet_storedDoc]
  · rfl

/-! ## C10 -/

/-- C10 counterexample: a cache entry whose JSON parse yields `null` (a
non-array value lacking a numeric length) is NOT returned verbatim — the
`tweets.length` access throws and the request fails. -/
theorem c10_null_cache_not_returned :
    (getSentiment (some (CachedString.parsed JsValue.vnull)) [] false).1
      ≠ Except.ok JsValue.vnull :=
  fun h => nomatch h

/-- C10 (amended): when the cached string parses to a value whose `length`
property reads without throwing (any non-null, non-undefined value) and is
not strictly equal to the number 0, the handler returns that parsed value
verbatim — no Tweet-shape validation, no store query, no cache write. -/
theorem c10_unvalidated_cache_hit (v : JsValue) (l : Option JsValue) (store : List JsValue)
    (sf : Bool) (hl : getProp v "length" = Except.ok l) (hz : strictEqZero l = false) :
    getSentiment (some (CachedString.parsed v)) store sf
      = (Except.ok v, [Event.cacheGet "tweets"]) := by
  simp [getSentiment, getSentimentBody, hl, hz]

theorem c10_witness :
    getProp (JsValue.vobj [("junk", JsValue.vnum 1)]) "length" = Except.ok none
    ∧ strictEqZero none = false
    ∧ getSentiment (some (CachedString.parsed (JsValue.vobj [("junk", JsValue.vnum 1)]))) [] false
        = (Except.ok (JsValue.vobj [("junk", JsValue.vnum 1)]), [Event.cacheGet "tweets"]) :=
  ⟨rfl, rfl, c10_unvalidated_cache_hit (JsValue.vobj [("junk", JsValue.vnum 1)]) none [] false rfl rfl⟩

end MoodService

namespace MoodService

/-! ## C3 -/

/-- C3: cache-miss population — for any cache state the handler treats as
a miss, when the filtered store query is non-empty and every record
normalizes, the handler replies with the normalized records in store-result
order and writes exactly that list to the cache under `"tweets"` with the
24-hour expiry `60 * 60 * 24` seconds. -/
theorem c3_cache_miss_population (cache : Option CachedString) (store : List JsValue)
    (ns : List JsValue) (hm : missLike cache = true) (hne : queryTweets store ≠ [])
    (hn : mapExcept normalizeTweet (queryTweets store) = Except.ok ns) :
    getSentiment cache store false
      = (Except.ok (JsValue.varr ns),
         [Event.cacheGet "tweets", Event.storeQuery,
          Event.cacheSet "tweets" (JsValue.varr ns) (60 * 60 * 24)]) := by
  have hlen : (queryTweets store).length > 0 := List.length_pos.mpr hne
  match cache with
  | none =>
    simp [getSentiment, getSentimentBody, getProp, strictEqZero, hlen, hn]
  | some CachedString.emptyStr =>
    simp [getSentiment, getSentimentBody, getProp, strictEqZero, hlen, hn]
  | some CachedString.invalid => simp [missLike] at hm
  | some (CachedString.parsed v) =>
    match hp : getProp v "length" with
    | Except.error e => simp [missLike, hp] at hm
    | Except.ok l =>
      have hz : strictEqZero l = true := by simpa [missLike, hp] using hm
      simp [getSentiment, getSentimentBody, hp, hz, hlen, hn]

theorem c3_witness :
    missLike none = true
    ∧ queryTweets [storedDoc sampleTweet] ≠ []
    ∧ mapExcept normalizeTweet (queryTweets [storedDoc sampleTweet])
        = Except.ok [encodeTweet sampleTweet]
    ∧ getSentiment none [storedDoc sampleTweet] false
        = (Except.ok (JsValue.varr [encodeTweet sampleTweet]),
           [Event.cacheGet "tweets", Event.storeQuery,
            Event.cacheSet "tweets" (JsValue.varr [encodeTweet sampleTweet]) (60 * 60 * 24)]) :=
  ⟨rfl, (fun h => nomatch h), rfl,
    c3_cache_miss_population none [storedDoc sampleTweet] [encodeTweet sampleTweet]
      rfl (fun h => nomatch h) rfl⟩

/-! ## C7 -/

theorem runUpserts_fail (ts : List Tweet) (store : List JsValue) (n i : Nat)
    (h : n < ts.length) :
    runUpserts store ts (some (i + n)) i
      = (Except.error (), (ts.take n).map (fun t => Event.storeUpsert (storedDoc t)),
         List.foldl upsertDoc store ((ts.take n).map storedDoc)) := by
  induction ts generalizing store n i with
  | nil => simp at h
  | cons t rest ih =>
    cases n with
    | zero => simp [runUpserts]
    | succ m =>
      have harith : i + (m + 1) = (i + 1) + m := by omega
      have hne : ¬ (some ((i + 1) + m) = some i) := by
        simp only [Option.some.injEq]
        omega
      have h2 : m < rest.length := by simpa using h
      simp only [runUpserts, harith, if_neg hne, ih (upsertDoc store (storedDoc t)) m (i + 1) h2,
        List.take, List.map, List.foldl]

/-- C7: partial-batch persistence — POST /sentiment upserts its input one
at a time in input order; if the upsert at zero-based index `n` throws, the
request fails, exactly the first `n` tweets have been upserted into the
store (the remainder are untouched), and the effect trace is the upserts of
that prefix in input order. -/
theorem c7_partial_batch_persistence (ts : List Tweet) (store : List JsValue) (n : Nat)
    (h : n < ts.length) :
    postSentiment ts store (some n)
      = (Except.error (), (ts.take n).map (fun t => Event.storeUpsert (storedDoc t)),
         List.foldl upsertDoc store ((ts.take n).map storedDoc)) := by
  have hpos : ts.length > 0 := Nat.lt_of_le_of_lt (Nat.zero_le n) h
  have := runUpserts_fail ts store n 0 h
  rw [Nat.zero_add] at this
  simp [postSentiment, hpos, this]

theorem c7_witness :
    1 < ([sampleTweet, sampleTweetB] : List Tweet).length
    ∧ postSentiment [sampleTweet, sampleTweetB] [] (some 1)
        = (Except.error (), [Event.storeUpsert (storedDoc sampleTweet)],
           [storedDoc sampleTweet]) := by
  refine ⟨by decide, ?_⟩
  rw [c7_partial_batch_persistence [sampleTweet, sampleTweetB] [] 1 (by decide)]
  rfl

/-! ## C9 -/

theorem runUpserts_no_cache_events (ts : List Tweet) (store : List JsValue)
    (failAt : Option Nat) (i : Nat) :
    ((runUpserts store ts failAt i).2.1).all (fun e => !isCacheEvent e) = true := by
  induction ts generalizing store i with
  | nil => rfl
  | cons t rest ih =>
    by_cases hf : failAt = some i
    · simp [runUpserts, hf]
    · simp only [runUpserts, if_neg hf, List.all_cons,
        ih (upsertDoc store (storedDoc t)) (i + 1)]
      rfl

theorem applyEvents_of_no_cache_events (c : List (String × CachedString)) (evs : List Event)
    (h : evs.all (fun e => !isCacheEvent e) = true) : applyEvents c evs = c := by
  induction evs generalizing c with
  | nil => rfl
  | cons e rest ih =>
    simp only [List.all_cons, Bool.and_eq_true, Bool.not_eq_true'] at h
    have he : applyEvent c e = c := by
      cases e with
      | cacheGet k => simp [isCacheEvent] at h
      | cacheSet k v x => simp [isCacheEvent] at h
      | storeQuery => rfl
      | storeUpsert d => rfl
    calc applyEvents c (e :: rest) = applyEvents (applyEvent c e) rest := rfl
      _ = applyEvents c rest := by rw [he]
      _ = c := ih c (by simpa using h.2)

/-- C9: write-path cache frame — POST /sentiment performs no cache read
and no cache write for any batch, store state and upsert outcome: its
effect trace holds no cache events, and replaying the trace over any cache
state (the key `"tweets"` and every other entry) leaves it unchanged. -/
theorem c9_write_path_cache_frame (body : List Tweet) (store : List JsValue)
    (failAt : Option Nat) (cacheState : List (String × CachedString)) :
    ((postSentiment body store failAt).2.1).all (fun e => !isCacheEvent e) = true
    ∧ applyEvents cacheState (postSentiment body store failAt).2.1 = cacheState := by
  have hall : ((postSentiment body store failAt).2.1).all (fun e => !isCacheEvent e) = true := by
    by_cases hb : body.length > 0
    · simp [postSentiment, hb, runUpserts_no_cache_events]
    · simp [postSentiment, hb]
  exact ⟨hall, applyEvents_of_no_cache_events cacheState _ hall⟩

end MoodService

namespace MoodService

/-! ## C8: ordering infrastructure for `ORDER BY t.id DESC` -/

theorem lexLe_total (as bs : List Char) : lexLe as bs = true ∨ lexLe bs as = true := by
  induction as generalizing bs with
  | nil => left; rfl
  | cons a as ih =>
    cases bs with
    | nil => right; rfl
    | cons b bs =>
      rcases lt_trichotomy a b with h | h | h
      · left
        simp [lexLe, h]
      · subst h
        rcases ih bs with h2 | h2
        · left
          simp [lexLe, h2]
        · right
          simp [lexLe, h2]
      · right
        simp [lexLe, h, not_lt.mpr h.le]

theorem lexLe_trans {as bs cs : List Char} (h1 : lexLe as bs = true)
    (h2 : lexLe bs cs = true) : lexLe as cs = true := by
  induction as generalizing bs cs with
  | nil => rfl
  | cons a as ih =>
    cases bs with
    | nil => simp [lexLe] at h1
    | cons b bs =>
      cases cs with
      | nil => simp [lexLe] at h2
      | cons c cs =>
        simp only [lexLe] at h1 h2 ⊢
        by_cases hab : a < b
        · by_cases hbc : b < c
          · simp [lt_trans hab hbc]
          · by_cases hcb : c < b
            · simp [hbc, hcb] at h2
            · have hbceq : b = c := le_antisymm (not_lt.mp hcb) (not_lt.mp hbc)
              subst hbceq
              simp [hab]
        · by_cases hba : b < a
          · simp [hab, hba] at h1
          · have habeq : a = b := le_antisymm (not_lt.mp hba) (not_lt.mp hab)
            subst habeq
            by_cases hac : a < c
            · simp [hac]
            · by_cases hca : c < a
              · simp [hac, hca] at h2
              · simp [hac, hca] at h1 h2 ⊢
                exact ih h1 h2

theorem lexLe_antisymm {as bs : List Char} (h1 : lexLe as bs = true)
    (h2 : lexLe bs as = true) : as = bs := by
  induction as generalizing bs with
  | nil =>
    cases bs with
    | nil => rfl
    | cons b bs => simp [lexLe] at h2
  | cons a as ih =>
    cases bs with
    | nil => simp [lexLe] at h1
    | cons b bs =>
      simp only [lexLe] at h1 h2
      by_cases hab : a < b
      · simp [hab, lt_asymm hab] at h2
      · by_cases hba : b < a
        · simp [hab, hba] at h1
        · have habeq : a = b := le_antisymm (not_lt.mp hba) (not_lt.mp hab)
          subst habeq
          simp [hab] at h1 h2
          rw [ih h1 h2]

theorem strLe_antisymm {a b : String} (h1 : strLe a b = true) (h2 : strLe b a = true) :
    a = b := by
  cases a with
  | mk da =>
    cases b with
    | mk db =>
      have : da = db := lexLe_antisymm h1 h2
      rw [this]

instance : IsTotal String sortDescRel :=
  ⟨fun a b => (lexLe_total b.data a.data).elim Or.inl Or.inr⟩

instance : IsTrans String sortDescRel :=
  ⟨fun _ _ _ h1 h2 => lexLe_trans h2 h1⟩

theorem sortDesc_sorted (l : List String) : List.Sorted sortDescRel (sortDesc l) :=
  List.sorted_insertionSort sortDescRel l

theorem sortDesc_perm (l : List String) : (sortDesc l).Perm l :=
  List.perm_insertionSort sortDescRel l

/-! ## C8 -/

/-- C8: latest-tweet contract — GET /last-known-tweet issues the single
filtered, id-descending, limit-1 store query; on a store whose filtered id
list is empty it replies 404 with `{data: {id: ""}}`, and otherwise it
replies 200 with the greatest id of a `"tweet"`-discriminated record under
the string order. -/
theorem c8_last_known_tweet (store : List JsValue) :
    (tweetIds store = [] →
      lastKnownTweet store
        = (404, JsValue.vobj [("data", JsValue.vobj [("id", JsValue.vstr "")])],
           [Event.storeQuery]))
    ∧ (∀ m, m ∈ tweetIds store → (∀ x, x ∈ tweetIds store → strLe x m = true) →
      lastKnownTweet store
        = (200, JsValue.vobj [("data", JsValue.vobj [("id", JsValue.vstr m)])],
           [Event.storeQuery])) := by
  constructor
  · intro h
    simp [lastKnownTweet, h, sortDesc, List.insertionSort]
  · intro m hm hub
    have hperm := sortDesc_perm (tweetIds store)
    cases hs : sortDesc (tweetIds store) with
    | nil =>
      have : m ∈ sortDesc (tweetIds store) := hperm.mem_iff.mpr hm
      rw [hs] at this
      exact absurd this (List.not_mem_nil m)
    | cons hd tl =>
      have hsorted := sortDesc_sorted (tweetIds store)
      rw [hs] at hsorted
      have hhd : hd ∈ tweetIds store := hperm.mem_iff.mp (by rw [hs]; exact List.mem_cons_self hd tl)
      have h1 : strLe hd m = true := hub hd hhd
      have hm2 : m ∈ hd :: tl := by
        rw [← hs]
        exact hperm.mem_iff.mpr hm
      have heq : hd = m := by
        rcases List.mem_cons.mp hm2 with h | h
        · exact h.symm
        · exact strLe_antisymm h1 (List.rel_of_sorted_cons hsorted m h)
      simp [lastKnownTweet, hs, heq]

theorem c8_witness :
    tweetIds [] = []
    ∧ lastKnownTweet []
        = (404, JsValue.vobj [("data", JsValue.vobj [("id", JsValue.vstr "")])],
           [Event.storeQuery])
    ∧ "100" ∈ tweetIds [storedDoc sampleTweetB, storedDoc sampleTweet]
    ∧ (∀ x, x ∈ tweetIds [storedDoc sampleTweetB, storedDoc sampleTweet] → strLe x "100" = true)
    ∧ lastKnownTweet [storedDoc sampleTweetB, storedDoc sampleTweet]
        = (200, JsValue.vobj [("data", JsValue.vobj [("id", JsValue.vstr "100")])],
           [Event.storeQuery]) :=
  ⟨rfl, (c8_last_known_tweet []).1 rfl, by decide, by decide,
    (c8_last_known_tweet [storedDoc sampleTweetB, storedDoc sampleTweet]).2 "100"
      (by decide) (by decide)⟩

end MoodService
